import Mathlib

/-!
Verification of the Prettier formatter plugin (`src/__init__.py`).

The development shallowly embeds the plugin's pure decision logic:
JSON-like configuration values (`JVal`), the ordered-dictionary operations
that Python dicts provide (`jGet`, `jSet`, `jUpdate`, `jErase`),
the default configuration literal, comment-key filtering and configuration
merging (`_filter_comments`, `load_config_doc`), command construction
(`build_prettier_command`), timeout validation (`effective_timeout`),
stderr classification (`classify_stderr`) and the `do_format` pipeline,
with the editor, filesystem and subprocess boundaries abstracted as an
explicit environment (`Env`).
-/

/-- JSON-like values stored in configuration dictionaries (`json.load` output). -/
inductive JVal where
  | str : String → JVal
  | num : Int → JVal
  | bool : Bool → JVal
  | null : JVal
  | arr : List JVal → JVal
  | obj : List (String × JVal) → JVal

/-- A Python dict with string keys, modelled as an ordered association list
with pairwise-distinct keys (distinctness is carried as a hypothesis where needed). -/
abbrev Dict := List (String × JVal)

/-- Keys of a dict, in insertion order. -/
def jKeys (d : Dict) : List String := d.map Prod.fst

/-- `k in d` for a Python dict. -/
def jHasKey (d : Dict) : String → Bool
  | k => d.any (fun kv => kv.1 == k)

/-- `d.get(k)` / `d[k]` lookup: first (unique) binding of `k`. -/
def jGet : Dict → String → Option JVal
  | [], _ => none
  | (k1, v1) :: t, k => if k1 = k then some v1 else jGet t k

/-- `d[k] = v`: overwrite in place when the key exists, else append. -/
def jSet (d : Dict) (k : String) (v : JVal) : Dict :=
  if jHasKey d k then d.map (fun kv => if kv.1 = k then (k, v) else kv)
  else d ++ [(k, v)]

/-- `d.update(u)`: key-wise overwrite of `d` by `u`, new keys appended in order. -/
def jUpdate (d : Dict) (u : Dict) : Dict :=
  u.foldl (fun acc kv => jSet acc kv.1 kv.2) d

/-- `del d[k]`. -/
def jErase (d : Dict) (k : String) : Dict :=
  d.filter (fun kv => kv.1 != k)

/-- `k.startswith('//')`: the documentation-comment marker test, computed on the
character sequence of the key. -/
def is_comment_key (k : String) : Bool :=
  match k.data with
  | '/' :: '/' :: _ => true
  | _ => false

/-- `_filter_comments`: remove comment keys (starting with `//`) from a config dict. -/
def _filter_comments (config_dict : Dict) : Dict :=
  config_dict.filter (fun kv => !(is_comment_key kv.1))

/-- Python `repr`, as used by `str()` on containers (ASCII scope). -/
def pyRepr : JVal → String
  | .str s => "\x27" ++ s ++ "\x27"
  | .num n => toString n
  | .bool b => if b then "True" else "False"
  | .null => "None"
  | .arr l => "[" ++ String.intercalate ", " (l.attach.map (fun a => pyRepr a.1)) ++ "]"
  | .obj l => "\x7b" ++ String.intercalate ", "
      (l.attach.map (fun kv => "\x27" ++ kv.1.1 ++ "\x27: " ++ pyRepr kv.1.2)) ++ "\x7d"
  termination_by v => sizeOf v
  decreasing_by
  · have h := List.sizeOf_lt_of_mem a.2
    simp only [JVal.arr.sizeOf_spec]
    omega
  · have h := List.sizeOf_lt_of_mem kv.2
    have h2 : sizeOf kv.1.2 < sizeOf kv.1 := by
      obtain ⟨a, b⟩ := kv.1
      simp only [Prod.mk.sizeOf_spec]
      omega
    simp only [JVal.obj.sizeOf_spec]
    omega

/-- Python `str()` of a configuration value. -/
def pyStr : JVal → String
  | .str s => s
  | v => pyRepr v

/-- Python truthiness of a configuration value. -/
def pyTruthy : JVal → Bool
  | .str s => s ≠ ""
  | .num n => n ≠ 0
  | .bool b => b
  | .null => false
  | .arr l => !l.isEmpty
  | .obj l => !l.isEmpty

/-- The `prettier_options` sub-map of `DEFAULT_CONFIG`, documentation-comment
keys included, in source order. -/
def DEFAULT_PRETTIER_OPTIONS : Dict := [
  ("printWidth", .num 80),
  ("// printWidth", .str "Line length (default: 80)"),
  ("tabWidth", .num 2),
  ("// tabWidth", .str "Spaces per indentation (default: 2)"),
  ("useTabs", .bool false),
  ("// useTabs", .str "Use tabs instead of spaces (default: false)"),
  ("semi", .bool true),
  ("// semi", .str "Add semicolons (default: true)"),
  ("singleQuote", .bool false),
  ("// singleQuote", .str "Use single quotes (default: false)"),
  ("jsxSingleQuote", .bool false),
  ("// jsxSingleQuote", .str "Single quotes in JSX (default: false)"),
  ("quoteProps", .str "as-needed"),
  ("// quoteProps", .str "Quote object properties: as-needed | consistent | preserve (default: as-needed)"),
  ("trailingComma", .str "es5"),
  ("// trailingComma", .str "Trailing commas: none | es5 | all (default: es5)"),
  ("bracketSpacing", .bool true),
  ("// bracketSpacing", .str "Spaces in brackets (default: true)"),
  ("bracketSameLine", .bool false),
  ("// bracketSameLine", .str "Put > on same line in HTML/JSX (default: false)"),
  ("arrowParens", .str "always"),
  ("// arrowParens", .str "Arrow function parens: avoid | always (default: always)"),
  ("proseWrap", .str "preserve"),
  ("// proseWrap", .str "Wrap prose: always | never | preserve (default: preserve)"),
  ("htmlWhitespaceSensitivity", .str "css"),
  ("// htmlWhitespaceSensitivity", .str "HTML whitespace: css | strict | ignore (default: css)"),
  ("vueIndentScriptAndStyle", .bool false),
  ("// vueIndentScriptAndStyle", .str "Indent script/style in Vue (default: false)"),
  ("endOfLine", .str "lf"),
  ("// endOfLine", .str "Line ending: auto | lf | crlf | cr (default: lf)"),
  ("embeddedLanguageFormatting", .str "auto"),
  ("// embeddedLanguageFormatting", .str "Format embedded code: auto | off (default: auto)"),
  ("singleAttributePerLine", .bool false),
  ("// singleAttributePerLine", .str "One attribute per line in HTML/JSX (default: false)"),
  ("objectWrap", .str "preserve"),
  ("// objectWrap", .str "Object wrap mode: preserve | collapse (default: preserve, v3.5.0+)"),
  ("experimentalTernaries", .bool false),
  ("// experimentalTernaries", .str "Ternary formatting: false | true (default: false, v3.1.0+, experimental)"),
  ("insertPragma", .bool false),
  ("// insertPragma", .str "Insert @format pragma (default: false)"),
  ("requirePragma", .bool false),
  ("// requirePragma", .str "Only format files with pragma (default: false)"),
  ("rangeStart", .num 0),
  ("// rangeStart", .str "Format from byte offset (default: 0 = start of file)"),
  ("rangeEnd", .str "Infinity"),
  ("// rangeEnd", .str "Format to byte offset (default: Infinity = end of file)")]

/-- `DEFAULT_CONFIG`: the default configuration structure, comment keys included. -/
def DEFAULT_CONFIG : Dict := [
  ("prettier_path", .str ""),
  ("// prettier_path", .str "Custom path to Prettier executable. Leave empty for auto-detection"),
  ("timeout_seconds", .num 10),
  ("// timeout_seconds", .str "Prettier subprocess timeout in seconds (default: 10)"),
  ("use_prettier_config_file", .bool true),
  ("// use_prettier_config_file", .str "If true, uses .prettierrc from project. If false, uses options below"),
  ("// PRETTIER OPTIONS NOTE", .str "https://prettier.io/docs/en/options.html (only used when use_prettier_config_file=false)"),
  ("prettier_options", .obj DEFAULT_PRETTIER_OPTIONS)]

/-- `LEXER_TO_PARSER`: lexer name to Prettier parser mapping. -/
def LEXER_TO_PARSER : List (String × String) := [
  ("JavaScript", "babel"),
  ("JavaScript Babel", "babel-flow"),
  ("TypeScript", "typescript"),
  ("CSS", "css"),
  ("SCSS", "scss"),
  ("LESS", "less"),
  ("HTML", "html"),
  ("XML", "html"),
  ("Markdown", "markdown"),
  ("MDX", "mdx"),
  ("JSON", "json"),
  ("YAML", "yaml"),
  ("GraphQL", "graphql"),
  ("HTML Handlebars", "html"),
  ("HTML Laravel Blade", "html"),
  ("HTML Django DTL", "html"),
  ("Jinja2", "html"),
  ("Twig", "html"),
  ("Svelte", "html"),
  ("Vue", "vue"),
  ("Pug", "pug"),
  ("Jade", "pug")]

/-- `LEXER_TO_PARSER.get(lexer)`. -/
def lexerToParserGet (lexer : String) : Option String :=
  (LEXER_TO_PARSER.find? (fun kv => kv.1 == lexer)).map (fun kv => kv.2)

/-- Python's whitespace set for `str.strip` and `str.split()` (ASCII scope). -/
def pyIsSpace (c : Char) : Bool :=
  c == ' ' || c == '\t' || c == '\n' || c == '\x0d' || c == '\x0b' || c == '\x0c'

/-- `s.strip()`: drop leading and trailing whitespace. -/
def pyStrip (s : String) : String :=
  String.mk (((s.data.dropWhile pyIsSpace).reverse.dropWhile pyIsSpace).reverse)

/-- Split a character list at every character satisfying `p`, keeping empty pieces
(the semantics of Python's `str.split(sep)` at character level). -/
def split_on_pred (p : Char → Bool) : List Char → List (List Char)
  | [] => [[]]
  | h :: t =>
    match split_on_pred p t with
    | [] => [[h]]
    | r :: rs => if p h then [] :: r :: rs else (h :: r) :: rs

/-- `s.split('\n')`. -/
def py_split_lines (s : String) : List String :=
  (split_on_pred (fun c => c == '\n') s.data).map String.mk

/-- `s.split()`: split on whitespace runs, dropping empty pieces. -/
def py_split_ws (s : String) : List String :=
  ((split_on_pred pyIsSpace s.data).filter (fun l => !l.isEmpty)).map String.mk

/-- `needle in hay` for Python strings: `starts` checks a prefix match ... -/
def char_starts : List Char → List Char → Bool
  | [], _ => true
  | _ :: _, [] => false
  | a :: as, b :: bs => a == b && char_starts as bs

/-- ... and `char_contains` scans every suffix of the haystack for it. -/
def char_contains : List Char → List Char → Bool
  | [], needle => char_starts needle []
  | hay@(_ :: t), needle => char_starts needle hay || char_contains t needle

/-- `needle in hay` (Python substring containment). -/
def py_in_str (needle hay : String) : Bool := char_contains hay.data needle.data

/-- `prettier_path.split() if ' ' in prettier_path else [prettier_path]`: the seed
tokens of the command (package-manager executors contain spaces). -/
def py_cmd_seed (prettier_path : String) : List String :=
  if prettier_path.data.contains ' ' then py_split_ws prettier_path else [prettier_path]

/-- `config.get(k, default)`: a present key's stored value (even `None`), else the default. -/
def pyGetD (d : Dict) (k : String) (dflt : JVal) : JVal :=
  (jGet d k).getD dflt

/-- `config.get('prettier_options', {})`, as the dictionary the option-emission code
then indexes into. A present non-mapping value makes the source raise a `TypeError`
(uncaught in `build_prettier_command`); such configurations are excluded by
`options_wf` hypotheses, and this total model returns `[]` for them. -/
def config_options (config : Dict) : Dict :=
  match jGet config "prettier_options" with
  | some (.obj o) => o
  | _ => []

/-- A configuration whose `prettier_options` key, when present, holds a mapping —
the only configurations on which the source's option emission runs without raising. -/
def options_wf (config : Dict) : Bool :=
  match jGet config "prettier_options" with
  | some (.obj _) => true
  | some _ => false
  | none => true

/-- `options['k']` under a `'k' in options` guard (total model: `null` if absent). -/
def jGetV (d : Dict) (k : String) : JVal := (jGet d k).getD .null

/-- `options.get('rangeStart')` / `options.get('rangeEnd')`: Python returns `None`
both for an absent key and for a stored JSON `null`, and the source's
`x if ... is None else ...` cannot tell the two apart. -/
def pyGetNone (d : Dict) (k : String) : Option JVal :=
  match jGet d k with
  | some .null => none
  | o => o

/-- `str(0 if range_start is None else range_start)`. -/
def range_start_token (options : Dict) : String :=
  pyStr ((pyGetNone options "rangeStart").getD (.num 0))

/-- `str('Infinity' if range_end is None else range_end)`. -/
def range_end_token (options : Dict) : String :=
  pyStr ((pyGetNone options "rangeEnd").getD (.str "Infinity"))

/-- `build_prettier_command(prettier_path, parser, config)`: the full argument list.
Tokens are `JVal`s because the source appends some option values unconverted
(e.g. `options['quoteProps']`); every token the source builds with `str(...)` or a
literal is a `.str`. -/
def build_prettier_command (prettier_path parser : String) (config : Dict) : List JVal :=
  let cmd_parts := (py_cmd_seed prettier_path).map JVal.str
  let cmd_parts := cmd_parts ++ [JVal.str "--parser", JVal.str parser] ++ [JVal.str "--no-color"]
  if pyTruthy (pyGetD config "use_prettier_config_file" (.bool true)) then cmd_parts
  else
    let options := config_options config
    cmd_parts
      ++ (if jHasKey options "printWidth" then
            [JVal.str "--print-width", JVal.str (pyStr (jGetV options "printWidth"))] else [])
      ++ (if jHasKey options "tabWidth" then
            [JVal.str "--tab-width", JVal.str (pyStr (jGetV options "tabWidth"))] else [])
      ++ (if pyTruthy (pyGetD options "useTabs" (.bool false)) then [JVal.str "--use-tabs"] else [])
      ++ (if !pyTruthy (pyGetD options "semi" (.bool true)) then [JVal.str "--no-semi"] else [])
      ++ (if pyTruthy (pyGetD options "singleQuote" (.bool false)) then
            [JVal.str "--single-quote"] else [])
      ++ (if pyTruthy (pyGetD options "jsxSingleQuote" (.bool false)) then
            [JVal.str "--jsx-single-quote"] else [])
      ++ (if jHasKey options "quoteProps" then
            [JVal.str "--quote-props", jGetV options "quoteProps"] else [])
      ++ (if jHasKey options "trailingComma" then
            [JVal.str "--trailing-comma", jGetV options "trailingComma"] else [])
      ++ (if !pyTruthy (pyGetD options "bracketSpacing" (.bool true)) then
            [JVal.str "--no-bracket-spacing"] else [])
      ++ (if pyTruthy (pyGetD options "bracketSameLine" (.bool false)) then
            [JVal.str "--bracket-same-line"] else [])
      ++ (if jHasKey options "arrowParens" then
            [JVal.str "--arrow-parens", jGetV options "arrowParens"] else [])
      ++ (if jHasKey options "endOfLine" then
            [JVal.str "--end-of-line", jGetV options "endOfLine"] else [])
      ++ (if jHasKey options "proseWrap" then
            [JVal.str "--prose-wrap", jGetV options "proseWrap"] else [])
      ++ (if jHasKey options "htmlWhitespaceSensitivity" then
            [JVal.str "--html-whitespace-sensitivity", jGetV options "htmlWhitespaceSensitivity"]
          else [])
      ++ (if pyTruthy (pyGetD options "vueIndentScriptAndStyle" (.bool false)) then
            [JVal.str "--vue-indent-script-and-style"] else [])
      ++ (if jHasKey options "embeddedLanguageFormatting" then
            [JVal.str "--embedded-language-formatting", jGetV options "embeddedLanguageFormatting"]
          else [])
      ++ (if pyTruthy (pyGetD options "singleAttributePerLine" (.bool false)) then
            [JVal.str "--single-attribute-per-line"] else [])
      ++ (if jHasKey options "objectWrap" then
            [JVal.str "--object-wrap", jGetV options "objectWrap"] else [])
      ++ (if pyTruthy (pyGetD options "experimentalTernaries" (.bool false)) then
            [JVal.str "--experimental-ternaries"] else [])
      ++ (if pyTruthy (pyGetD options "insertPragma" (.bool false)) then
            [JVal.str "--insert-pragma"] else [])
      ++ (if pyTruthy (pyGetD options "requirePragma" (.bool false)) then
            [JVal.str "--require-pragma"] else [])
      ++ [JVal.str "--range-start", JVal.str (range_start_token options)]
      ++ [JVal.str "--range-end", JVal.str (range_end_token options)]

/-- `load_config()` on a parsed user document. A non-mapping document, or a
non-mapping `prettier_options` value, makes `_filter_comments` (`.items()`) raise;
the surrounding `except` returns the comment-filtered defaults. -/
def load_config_doc : JVal → Dict
  | .obj user_config =>
    let config := _filter_comments DEFAULT_CONFIG
    match jGet user_config "prettier_options" with
    | some (.obj uopts) =>
      let user_options := _filter_comments uopts
      let config2 := jSet config "prettier_options"
        (.obj (jUpdate (config_options config) user_options))
      jUpdate config2 (_filter_comments (jErase user_config "prettier_options"))
    | some _ => _filter_comments DEFAULT_CONFIG
    | none => jUpdate config (_filter_comments user_config)
  | _ => _filter_comments DEFAULT_CONFIG

/-- `load_config()` as seen by `do_format`: `none` models every branch that falls
back to defaults (no config path, absent file, JSON parse error), `some doc` a
successfully parsed file. -/
def load_config_env : Option JVal → Dict
  | none => _filter_comments DEFAULT_CONFIG
  | some doc => load_config_doc doc

/-- The claim's notion of a positive number (a JSON numeric value greater than zero). -/
def isPosNumVal (v : JVal) : Prop := ∃ n : Int, v = .num n ∧ 0 < n

/-- Lines 404-407 of `do_format`: `timeout = config.get('timeout_seconds', 10)`,
replaced by 10 unless `isinstance(timeout, (int, float)) and timeout > 0`.
Python's `bool` is an `int` subtype, so a stored `true` passes the check and is
used as the number 1. -/
def effective_timeout (config : Dict) : Int :=
  match pyGetD config "timeout_seconds" (.num 10) with
  | .num n => if 0 < n then n else 10
  | .bool b => if b then 1 else 10
  | _ => 10

/-- `stderr.strip() if stderr else 'Unknown error'`. -/
def stderr_msg (stderr : String) : String :=
  if stderr ≠ "" then pyStrip stderr else "Unknown error"

/-- `'SyntaxError' in error_msg or 'ParseError' in error_msg`. -/
def has_syntax_marker (error_msg : String) : Bool :=
  py_in_str "SyntaxError" error_msg || py_in_str "ParseError" error_msg

/-- The diagnostic printed for a non-zero exit status (lines 428-436). -/
def classify_stderr (stderr : String) : String :=
  let error_msg := stderr_msg stderr
  if has_syntax_marker error_msg then
    "ERROR: Prettier syntax error:\n  " ++
      String.intercalate "\n  " ((py_split_lines error_msg).take 3)
  else
    "ERROR: Prettier failed: " ++ error_msg

/-- Outcome of `process.communicate` with the surrounding `except` clauses. -/
inductive RunOutcome where
  | completed (returncode : Int) (stdout stderr : String)
  | timeoutExpired
  | fileNotFound
  | exn (msg : String)

/-- The external collaborators of `do_format`: the editor state, the config file
state, the filesystem and the subprocess boundary, abstracted as data so the
pipeline itself is a pure function of them. -/
structure Env where
  prop_lexer_file : String
  user_config : Option JVal
  find : Dict → Option String
  get_filename : String
  dirname : String → String
  run : List JVal → String → Option String → Int → RunOutcome

/-- The tagged outcome of a format request; the source returns a string for
`unchanged`/`success` and `None` for every other tag (see `result_text`). -/
inductive FormatResult where
  | unchanged (text : String)
  | unsupported (lexer : String)
  | notFound
  | processFailure (diag : String)
  | emptyOutput
  | success (out : String)
  | timedOut (seconds : Int)
  | spawnNotFound
  | execError (msg : String)

/-- The value `do_format` actually returns to the caller. -/
def result_text : FormatResult → Option String
  | .unchanged t => some t
  | .success t => some t
  | _ => none

/-- The lexer actually used: the argument, or the editor's when the argument is empty. -/
def effective_lexer (lexer : String) (env : Env) : String :=
  if lexer = "" then env.prop_lexer_file else lexer

/-- `cwd = os.path.dirname(current_file) if current_file else None`. -/
def do_cwd (env : Env) : Option String :=
  if env.get_filename ≠ "" then some (env.dirname env.get_filename) else none

/-- The `prettier_options` value of a parsed document, when it is a mapping, has
pairwise-distinct keys (any other value is unconstrained). -/
def opts_keys_nodup : Option JVal → Prop
  | some (.obj o) => (jKeys o).Nodup
  | _ => True

/-- A parsed user document as `json.load` can hand it to `load_config`: every
mapping Python builds has pairwise-distinct keys, recorded here for the top
level and for the `prettier_options` block. -/
def doc_wf : JVal → Prop
  | .obj l => (jKeys l).Nodup ∧ opts_keys_nodup (jGet l "prettier_options")
  | _ => True

instance : (o : Option JVal) → Decidable (opts_keys_nodup o)
  | none => .isTrue trivial
  | some (.str _) => .isTrue trivial
  | some (.num _) => .isTrue trivial
  | some (.bool _) => .isTrue trivial
  | some .null => .isTrue trivial
  | some (.arr _) => .isTrue trivial
  | some (.obj o) => inferInstanceAs (Decidable (jKeys o).Nodup)

instance : (u : JVal) → Decidable (doc_wf u)
  | .str _ => .isTrue trivial
  | .num _ => .isTrue trivial
  | .bool _ => .isTrue trivial
  | .null => .isTrue trivial
  | .arr _ => .isTrue trivial
  | .obj l => inferInstanceAs (Decidable
      ((jKeys l).Nodup ∧ opts_keys_nodup (jGet l "prettier_options")))

/-- `do_format(text, lexer)`: the full pipeline over its abstracted environment. -/
def do_format (text lexer : String) (env : Env) : FormatResult :=
  if text = "" ∨ pyStrip text = "" then .unchanged text
  else
    match lexerToParserGet (effective_lexer lexer env) with
    | none => .unsupported (effective_lexer lexer env)
    | some parser =>
      match env.find (load_config_env env.user_config) with
      | none => .notFound
      | some prettier_path =>
        match env.run (build_prettier_command prettier_path parser
            (load_config_env env.user_config)) text (do_cwd env)
            (effective_timeout (load_config_env env.user_config)) with
        | .completed rc stdout stderr =>
          if rc ≠ 0 then .processFailure (classify_stderr stderr)
          else if stdout = "" then .emptyOutput
          else .success stdout
        | .timeoutExpired => .timedOut (effective_timeout (load_config_env env.user_config))
        | .fileNotFound => .spawnNotFound
        | .exn m => .execError m

/-- A concrete environment for witnesses: default configuration (`user_config`
absent or as given), a resolver that finds `prettier`, an unsaved document, and a
subprocess boundary that always yields the given outcome. -/
def probe_env (uc : Option JVal) (o : RunOutcome) : Env := {
  prop_lexer_file := "",
  user_config := uc,
  find := fun _ => some "prettier",
  get_filename := "",
  dirname := fun s => s,
  run := fun _ _ _ _ => o }

/-- The common shape of every `load_config` result: the comment-filtered defaults,
whose `prettier_options` entry was overwritten by the defaults' options block merged
with a comment-free user options block `uo`, then updated with a comment-free
top-level remainder `fu` that does not itself bind `prettier_options`. -/
def merged_shape (r : Dict) : Prop :=
  ∃ uo fu : Dict,
    (jKeys uo).Nodup ∧ (jKeys fu).Nodup ∧
    (∀ k ∈ jKeys fu, is_comment_key k = false) ∧
    jHasKey fu "prettier_options" = false ∧
    r = jUpdate (jSet (_filter_comments DEFAULT_CONFIG) "prettier_options"
      (.obj (jUpdate DEFAULT_PRETTIER_OPTIONS (_filter_comments uo)))) fu

theorem jKeys_cons (a : String) (b : JVal) (t : Dict) : jKeys ((a, b) :: t) = a :: jKeys t := rfl

theorem jHasKey_iff_mem (d : Dict) (k : String) : jHasKey d k = true ↔ k ∈ jKeys d := by
  simp only [jHasKey, jKeys, List.any_eq_true, List.mem_map, beq_iff_eq]

theorem jHasKey_eq_false_iff (d : Dict) (k : String) :
    jHasKey d k = false ↔ k ∉ jKeys d := by
  rw [← jHasKey_iff_mem]
  simp

theorem jGet_eq_none_iff (d : Dict) (k : String) : jGet d k = none ↔ k ∉ jKeys d := by
  induction d with
  | nil => simp [jGet, jKeys]
  | cons kv t ih =>
    obtain ⟨k1, v1⟩ := kv
    by_cases h : k1 = k
    · subst h
      simp [jGet, jKeys]
    · rw [jGet, if_neg h, ih]
      simp only [jKeys, List.map_cons, List.mem_cons]
      constructor
      · intro hk hc
        rcases hc with h1 | h2
        · exact h h1.symm
        · exact hk h2
      · intro hk h2
        exact hk (Or.inr h2)

theorem jGet_isSome_of_mem (d : Dict) (k : String) (h : k ∈ jKeys d) :
    ∃ v, jGet d k = some v := by
  rcases hg : jGet d k with _ | v
  · exact absurd h ((jGet_eq_none_iff d k).mp hg)
  · exact ⟨v, rfl⟩

/-- The overwriting map inside `jSet` at the overwritten key. -/
theorem jGet_overwrite_self (d : Dict) (k : String) (v : JVal) (h : k ∈ jKeys d) :
    jGet (d.map (fun kv => if kv.1 = k then (k, v) else kv)) k = some v := by
  induction d with
  | nil => simp [jKeys] at h
  | cons kv t ih =>
    obtain ⟨k1, v1⟩ := kv
    simp only [List.map_cons]
    by_cases hk : k1 = k
    · rw [if_pos (show (k1, v1).1 = k from hk), jGet, if_pos rfl]
    · rw [if_neg (show ¬(k1, v1).1 = k from hk), jGet, if_neg hk]
      apply ih
      simp only [jKeys, List.map_cons, List.mem_cons] at h
      rcases h with h | h
      · exact absurd h.symm hk
      · exact h

/-- The overwriting map inside `jSet` at any other key. -/
theorem jGet_overwrite_ne (d : Dict) (k : String) (v : JVal) (k2 : String) (h : k2 ≠ k) :
    jGet (d.map (fun kv => if kv.1 = k then (k, v) else kv)) k2 = jGet d k2 := by
  induction d with
  | nil => simp [jGet]
  | cons kv t ih =>
    obtain ⟨k1, v1⟩ := kv
    simp only [List.map_cons]
    by_cases hk : k1 = k
    · rw [if_pos (show (k1, v1).1 = k from hk), jGet, jGet,
        if_neg (fun hc : k = k2 => h hc.symm), if_neg (fun hc : k1 = k2 => h (hk ▸ hc).symm)]
      exact ih
    · rw [if_neg (show ¬(k1, v1).1 = k from hk), jGet, jGet]
      by_cases hk2 : k1 = k2
      · rw [if_pos hk2, if_pos hk2]
      · rw [if_neg hk2, if_neg hk2]
        exact ih

theorem jGet_append_of_not_mem (d e : Dict) (k : String) (h : k ∉ jKeys d) :
    jGet (d ++ e) k = jGet e k := by
  induction d with
  | nil => simp
  | cons kv t ih =>
    obtain ⟨k1, v1⟩ := kv
    simp only [jKeys, List.map_cons, List.mem_cons] at h
    push_neg at h
    rw [List.cons_append, jGet, if_neg (fun hc => h.1 hc.symm)]
    exact ih (by simpa [jKeys] using h.2)

theorem jGet_append_of_mem (d e : Dict) (k : String) (h : k ∈ jKeys d) :
    jGet (d ++ e) k = jGet d k := by
  induction d with
  | nil => simp [jKeys] at h
  | cons kv t ih =>
    obtain ⟨k1, v1⟩ := kv
    rw [List.cons_append, jGet, jGet]
    by_cases hk : k1 = k
    · rw [if_pos hk, if_pos hk]
    · rw [if_neg hk, if_neg hk]
      apply ih
      simp only [jKeys, List.map_cons, List.mem_cons] at h
      rcases h with h | h
      · exact absurd h.symm hk
      · exact h

theorem jKeys_jSet (d : Dict) (k : String) (v : JVal) :
    jKeys (jSet d k v) = if k ∈ jKeys d then jKeys d else jKeys d ++ [k] := by
  unfold jSet
  by_cases h : k ∈ jKeys d
  · rw [if_pos ((jHasKey_iff_mem d k).mpr h), if_pos h]
    unfold jKeys
    rw [List.map_map]
    apply List.map_congr_left
    intro kv _
    by_cases hk : kv.1 = k
    · simp [hk]
    · simp [hk]
  · rw [if_neg (by rw [jHasKey_iff_mem]; exact h), if_neg h]
    simp [jKeys]

theorem jGet_jSet_self (d : Dict) (k : String) (v : JVal) :
    jGet (jSet d k v) k = some v := by
  unfold jSet
  by_cases h : k ∈ jKeys d
  · rw [if_pos ((jHasKey_iff_mem d k).mpr h)]
    exact jGet_overwrite_self d k v h
  · rw [if_neg (by rw [jHasKey_iff_mem]; exact h), jGet_append_of_not_mem d _ k h, jGet,
      if_pos rfl]

theorem jGet_jSet_ne (d : Dict) (k : String) (v : JVal) (k2 : String) (h : k2 ≠ k) :
    jGet (jSet d k v) k2 = jGet d k2 := by
  unfold jSet
  by_cases hh : k ∈ jKeys d
  · rw [if_pos ((jHasKey_iff_mem d k).mpr hh)]
    exact jGet_overwrite_ne d k v k2 h
  · rw [if_neg (by rw [jHasKey_iff_mem]; exact hh)]
    by_cases h2 : k2 ∈ jKeys d
    · exact jGet_append_of_mem d _ k2 h2
    · rw [jGet_append_of_not_mem d _ k2 h2, jGet, if_neg (fun hc : k = k2 => h hc.symm), jGet,
        (jGet_eq_none_iff d k2).mpr h2]

theorem jHasKey_jSet_ne (d : Dict) (k : String) (v : JVal) (k2 : String) (h : k2 ≠ k) :
    jHasKey (jSet d k v) k2 = jHasKey d k2 := by
  rcases hc : jHasKey d k2 with _ | _
  · rw [jHasKey_eq_false_iff] at hc ⊢
    rw [jKeys_jSet]
    by_cases hm : k ∈ jKeys d
    · rwa [if_pos hm]
    · rw [if_neg hm]
      simp only [List.mem_append, List.mem_singleton]
      intro hcon
      rcases hcon with h1 | h2
      · exact hc h1
      · exact h h2
  · rw [jHasKey_iff_mem] at hc ⊢
    rw [jKeys_jSet]
    by_cases hm : k ∈ jKeys d
    · rwa [if_pos hm]
    · rw [if_neg hm]
      exact List.mem_append_left _ hc

theorem jUpdate_nil (d : Dict) : jUpdate d [] = d := rfl

theorem jUpdate_cons (d : Dict) (kv : String × JVal) (u : Dict) :
    jUpdate d (kv :: u) = jUpdate (jSet d kv.1 kv.2) u := rfl

theorem jGet_jUpdate (d u : Dict) (k : String) (hu : (jKeys u).Nodup) :
    jGet (jUpdate d u) k = if k ∈ jKeys u then jGet u k else jGet d k := by
  induction u generalizing d with
  | nil => simp [jUpdate_nil, jKeys]
  | cons kv t ih =>
    obtain ⟨a, b⟩ := kv
    rw [jKeys_cons] at hu
    have ha : a ∉ jKeys t := (List.nodup_cons.mp hu).1
    have ht : (jKeys t).Nodup := (List.nodup_cons.mp hu).2
    rw [jUpdate_cons, ih (jSet d a b) ht, jKeys_cons]
    by_cases hk : k ∈ jKeys t
    · have hka : ¬a = k := fun hc => ha (hc ▸ hk)
      rw [if_pos hk, if_pos (List.mem_cons_of_mem a hk), jGet, if_neg hka]
    · by_cases hka : k = a
      · subst hka
        rw [if_neg hk, if_pos (List.mem_cons_self k (jKeys t)), jGet, if_pos rfl, jGet_jSet_self]
      · rw [if_neg hk, if_neg (by
          intro hc
          rcases List.mem_cons.mp hc with h1 | h2
          exacts [hka h1, hk h2])]
        exact jGet_jSet_ne d a b k hka

theorem jKeys_jUpdate (d u : Dict) (hu : (jKeys u).Nodup) :
    jKeys (jUpdate d u) = jKeys d ++ (jKeys u).filter (fun k => !(jHasKey d k)) := by
  induction u generalizing d with
  | nil => simp [jUpdate_nil, jKeys]
  | cons kv t ih =>
    obtain ⟨a, b⟩ := kv
    rw [jKeys_cons] at hu
    have ha : a ∉ jKeys t := (List.nodup_cons.mp hu).1
    have ht : (jKeys t).Nodup := (List.nodup_cons.mp hu).2
    rw [jUpdate_cons, ih (jSet d a b) ht]
    have hfilter : (jKeys t).filter (fun k => !(jHasKey (jSet d a b) k)) =
        (jKeys t).filter (fun k => !(jHasKey d k)) := by
      apply List.filter_congr
      intro x hx
      rw [jHasKey_jSet_ne d a b x (fun hc => ha (hc ▸ hx))]
    rw [hfilter, jKeys_jSet, jKeys_cons, List.filter_cons]
    by_cases hm : a ∈ jKeys d
    · rw [if_pos hm, show jHasKey d a = true from (jHasKey_iff_mem d a).mpr hm]
      simp
    · rw [if_neg hm, show jHasKey d a = false from (jHasKey_eq_false_iff d a).mpr hm]
      simp [List.append_assoc]

theorem nodup_jKeys_jUpdate (d u : Dict) (hd : (jKeys d).Nodup) (hu : (jKeys u).Nodup) :
    (jKeys (jUpdate d u)).Nodup := by
  rw [jKeys_jUpdate d u hu]
  apply List.Nodup.append hd (hu.filter _)
  intro x hx1 hx2
  have := List.of_mem_filter hx2
  rw [Bool.not_eq_true', jHasKey_eq_false_iff] at this
  exact this hx1

theorem jKeys_filter_on_key (p : String → Bool) (d : Dict) :
    jKeys (d.filter (fun kv => p kv.1)) = (jKeys d).filter p := by
  induction d with
  | nil => rfl
  | cons kv t ih =>
    obtain ⟨k1, v1⟩ := kv
    simp only [jKeys, List.map_cons, List.filter_cons]
    rcases hp : p k1 with _ | _
    · simpa [jKeys] using ih
    · simpa [jKeys, hp] using ih

theorem jKeys_jErase (d : Dict) (k : String) :
    jKeys (jErase d k) = (jKeys d).filter (fun x => x != k) :=
  jKeys_filter_on_key (fun x => x != k) d

theorem jGet_jErase_ne (d : Dict) (k k2 : String) (h : k2 ≠ k) :
    jGet (jErase d k) k2 = jGet d k2 := by
  induction d with
  | nil => rfl
  | cons kv t ih =>
    obtain ⟨k1, v1⟩ := kv
    by_cases hk : k1 = k
    · subst hk
      rw [show jErase ((k1, v1) :: t) k1 = jErase t k1 from by simp [jErase, List.filter_cons],
        jGet, if_neg (fun hc : k1 = k2 => h hc.symm)]
      exact ih
    · rw [show jErase ((k1, v1) :: t) k = (k1, v1) :: jErase t k from by
        simp [jErase, List.filter_cons, hk], jGet, jGet]
      by_cases hk2 : k1 = k2
      · rw [if_pos hk2, if_pos hk2]
      · rw [if_neg hk2, if_neg hk2]
        exact ih

theorem jGet_jErase_self (d : Dict) (k : String) : jGet (jErase d k) k = none := by
  rw [jGet_eq_none_iff, jKeys_jErase]
  simp

theorem jKeys_filter_comments (d : Dict) :
    jKeys (_filter_comments d) = (jKeys d).filter (fun k => !(is_comment_key k)) :=
  jKeys_filter_on_key (fun k => !(is_comment_key k)) d

theorem mem_filter_comments (d : Dict) (k : String) (v : JVal) :
    (k, v) ∈ _filter_comments d ↔ (k, v) ∈ d ∧ is_comment_key k = false := by
  simp [_filter_comments, List.mem_filter]

theorem not_comment_of_mem_jKeys_filter_comments (d : Dict) (k : String)
    (h : k ∈ jKeys (_filter_comments d)) : is_comment_key k = false := by
  rw [jKeys_filter_comments] at h
  simpa using List.of_mem_filter h

theorem jGet_filter_comments (d : Dict) (k : String) (h : is_comment_key k = false) :
    jGet (_filter_comments d) k = jGet d k := by
  induction d with
  | nil => rfl
  | cons kv t ih =>
    obtain ⟨k1, v1⟩ := kv
    simp only [_filter_comments, List.filter_cons]
    by_cases hc : is_comment_key k1 = true
    · rw [if_neg (by simp [hc]), jGet, if_neg (fun hk : k1 = k => by rw [hk] at hc; simp [h] at hc)]
      simpa [_filter_comments] using ih
    · rw [if_pos (by simp at hc; simp [hc]), jGet, jGet]
      by_cases hk : k1 = k
      · rw [if_pos hk, if_pos hk]
      · rw [if_neg hk, if_neg hk]
        simpa [_filter_comments] using ih

theorem jGet_filter_comments_comment (d : Dict) (k : String) (h : is_comment_key k = true) :
    jGet (_filter_comments d) k = none := by
  rw [jGet_eq_none_iff, jKeys_filter_comments]
  intro hc
  have := List.of_mem_filter hc
  simp [h] at this

theorem filter_comments_eq_self (d : Dict) (h : ∀ kv ∈ d, is_comment_key kv.1 = false) :
    _filter_comments d = d := by
  apply List.filter_eq_self.mpr
  intro kv hkv
  simp [h kv hkv]

theorem nodup_jKeys_filter_comments (d : Dict) (h : (jKeys d).Nodup) :
    (jKeys (_filter_comments d)).Nodup := by
  rw [jKeys_filter_comments]
  exact h.filter _

theorem nodup_keys_default_options : (jKeys DEFAULT_PRETTIER_OPTIONS).Nodup := by decide

theorem nodup_keys_default_merged : (jKeys (_filter_comments DEFAULT_CONFIG)).Nodup := by decide

theorem default_merged_no_comment :
    ∀ k ∈ jKeys (_filter_comments DEFAULT_CONFIG), is_comment_key k = false := by decide

theorem popts_mem_default_merged :
    "prettier_options" ∈ jKeys (_filter_comments DEFAULT_CONFIG) := by decide

theorem jGet_default_merged_popts :
    jGet (_filter_comments DEFAULT_CONFIG) "prettier_options" =
      some (.obj DEFAULT_PRETTIER_OPTIONS) := rfl

/-- Two dictionaries with the same (duplicate-free) key sequence and the same
lookups are equal. -/
theorem dict_ext : ∀ (d1 d2 : Dict), (jKeys d1).Nodup → jKeys d1 = jKeys d2 →
    (∀ k, jGet d1 k = jGet d2 k) → d1 = d2 := by
  intro d1
  induction d1 with
  | nil =>
    intro d2 _ hk _
    cases d2 with
    | nil => rfl
    | cons kv t => simp [jKeys] at hk
  | cons kv t ih =>
    intro d2 hn hk hg
    obtain ⟨k1, v1⟩ := kv
    cases d2 with
    | nil => simp [jKeys] at hk
    | cons kv2 t2 =>
      obtain ⟨k2, v2⟩ := kv2
      rw [jKeys_cons, jKeys_cons] at hk
      injection hk with hk12 hkt
      subst hk12
      rw [jKeys_cons] at hn
      have hn1 : k1 ∉ jKeys t := (List.nodup_cons.mp hn).1
      have hn2 : (jKeys t).Nodup := (List.nodup_cons.mp hn).2
      have hv : v1 = v2 := by
        have hx := hg k1
        rw [jGet, if_pos rfl, jGet, if_pos rfl] at hx
        exact Option.some_inj.mp hx
      subst hv
      have ht : t = t2 := by
        apply ih t2 hn2 hkt
        intro k
        by_cases hka : k = k1
        · subst hka
          rw [(jGet_eq_none_iff t k).mpr hn1, (jGet_eq_none_iff t2 k).mpr (hkt ▸ hn1)]
        · have hx := hg k
          rw [jGet, if_neg (fun hc : k1 = k => hka hc.symm), jGet,
            if_neg (fun hc : k1 = k => hka hc.symm)] at hx
          exact hx
      rw [ht]

theorem merged_shape_default : merged_shape (_filter_comments DEFAULT_CONFIG) :=
  ⟨[], [], List.nodup_nil, List.nodup_nil,
    by intro k hk; simp [jKeys] at hk, rfl, rfl⟩

/-- Every `load_config` result on a well-formed user document has the merged shape. -/
theorem load_config_shape (u : JVal) (hu : doc_wf u) : merged_shape (load_config_doc u) := by
  cases u with
  | str s => exact merged_shape_default
  | num n => exact merged_shape_default
  | bool b => exact merged_shape_default
  | null => exact merged_shape_default
  | arr l => exact merged_shape_default
  | obj l =>
    obtain ⟨hl, hlo⟩ := hu
    rcases hp : jGet l "prettier_options" with _ | v
    · have heq : load_config_doc (.obj l) =
          jUpdate (_filter_comments DEFAULT_CONFIG) (_filter_comments l) := by
        simp only [load_config_doc]
        rw [hp]
      refine ⟨[], _filter_comments l, List.nodup_nil, ?_, ?_, ?_, ?_⟩
      · rw [jKeys_filter_comments]
        exact hl.filter _
      · intro k hk
        exact not_comment_of_mem_jKeys_filter_comments l k hk
      · rw [jHasKey_eq_false_iff, jKeys_filter_comments]
        intro hc
        exact (jGet_eq_none_iff l "prettier_options").mp hp (List.mem_of_mem_filter hc)
      · rw [heq]
        rfl
    · cases v with
      | obj uo =>
        have heq : load_config_doc (.obj l) =
            jUpdate (jSet (_filter_comments DEFAULT_CONFIG) "prettier_options"
              (.obj (jUpdate DEFAULT_PRETTIER_OPTIONS (_filter_comments uo))))
              (_filter_comments (jErase l "prettier_options")) := by
          simp only [load_config_doc]
          rw [hp]
          rfl
        have huon : (jKeys uo).Nodup := by
          rw [hp] at hlo
          exact hlo
        refine ⟨uo, _filter_comments (jErase l "prettier_options"), huon, ?_, ?_, ?_, heq⟩
        · rw [jKeys_filter_comments, jKeys_jErase]
          exact (hl.filter _).filter _
        · intro k hk
          exact not_comment_of_mem_jKeys_filter_comments _ k hk
        · rw [jHasKey_eq_false_iff, jKeys_filter_comments, jKeys_jErase]
          intro hc
          have h1 := List.of_mem_filter (List.mem_of_mem_filter hc)
          simp at h1
      | str s =>
        have heq : load_config_doc (.obj l) = _filter_comments DEFAULT_CONFIG := by
          simp only [load_config_doc]
          rw [hp]
        rw [heq]
        exact merged_shape_default
      | num n =>
        have heq : load_config_doc (.obj l) = _filter_comments DEFAULT_CONFIG := by
          simp only [load_config_doc]
          rw [hp]
        rw [heq]
        exact merged_shape_default
      | bool b =>
        have heq : load_config_doc (.obj l) = _filter_comments DEFAULT_CONFIG := by
          simp only [load_config_doc]
          rw [hp]
        rw [heq]
        exact merged_shape_default
      | null =>
        have heq : load_config_doc (.obj l) = _filter_comments DEFAULT_CONFIG := by
          simp only [load_config_doc]
          rw [hp]
        rw [heq]
        exact merged_shape_default
      | arr a =>
        have heq : load_config_doc (.obj l) = _filter_comments DEFAULT_CONFIG := by
          simp only [load_config_doc]
          rw [hp]
        rw [heq]
        exact merged_shape_default

theorem config_options_default :
    config_options (_filter_comments DEFAULT_CONFIG) = DEFAULT_PRETTIER_OPTIONS := rfl

/-- Merging a merged options block back into the default options block is the
identity: the non-comment part was already merged and the comment part was never
overwritten. -/
theorem merge_opts_idem (uo : Dict) (h : (jKeys uo).Nodup) :
    jUpdate DEFAULT_PRETTIER_OPTIONS
      (_filter_comments (jUpdate DEFAULT_PRETTIER_OPTIONS (_filter_comments uo))) =
    jUpdate DEFAULT_PRETTIER_OPTIONS (_filter_comments uo) := by
  have hfn : (jKeys (_filter_comments uo)).Nodup := by
    rw [jKeys_filter_comments]
    exact h.filter _
  have hfc : ∀ k ∈ jKeys (_filter_comments uo), is_comment_key k = false :=
    not_comment_of_mem_jKeys_filter_comments uo
  set M : Dict := jUpdate DEFAULT_PRETTIER_OPTIONS (_filter_comments uo) with hMdef
  have hMn : (jKeys M).Nodup :=
    nodup_jKeys_jUpdate _ _ nodup_keys_default_options hfn
  have hKeysM : jKeys M = jKeys DEFAULT_PRETTIER_OPTIONS ++
      (jKeys (_filter_comments uo)).filter (fun k => !(jHasKey DEFAULT_PRETTIER_OPTIONS k)) :=
    jKeys_jUpdate _ _ hfn
  have hfn2 : (jKeys (_filter_comments M)).Nodup := nodup_jKeys_filter_comments _ hMn
  apply dict_ext _ _ (nodup_jKeys_jUpdate _ _ nodup_keys_default_options hfn2)
  · rw [jKeys_jUpdate _ _ hfn2, jKeys_filter_comments, hKeysM, List.filter_append,
      List.filter_append]
    have hex : ((jKeys (_filter_comments uo)).filter
        (fun k => !(jHasKey DEFAULT_PRETTIER_OPTIONS k))).filter
          (fun k => !(is_comment_key k)) =
        (jKeys (_filter_comments uo)).filter (fun k => !(jHasKey DEFAULT_PRETTIER_OPTIONS k)) := by
      apply List.filter_eq_self.mpr
      intro a ha
      rw [hfc a (List.mem_of_mem_filter ha)]
      rfl
    have hdef0 : ((jKeys DEFAULT_PRETTIER_OPTIONS).filter
        (fun k => !(is_comment_key k))).filter
          (fun k => !(jHasKey DEFAULT_PRETTIER_OPTIONS k)) = [] := by
      rw [List.filter_eq_nil_iff]
      intro a ha
      rw [(jHasKey_iff_mem DEFAULT_PRETTIER_OPTIONS a).mpr (List.mem_of_mem_filter ha)]
      simp
    have hex2 : ((jKeys (_filter_comments uo)).filter
        (fun k => !(jHasKey DEFAULT_PRETTIER_OPTIONS k))).filter
          (fun k => !(jHasKey DEFAULT_PRETTIER_OPTIONS k)) =
        (jKeys (_filter_comments uo)).filter (fun k => !(jHasKey DEFAULT_PRETTIER_OPTIONS k)) := by
      rw [List.filter_filter]
      apply List.filter_congr
      intro a _
      rw [Bool.and_self]
    rw [hex, hdef0, hex2, List.nil_append]
  · intro k
    rw [jGet_jUpdate _ _ k hfn2]
    by_cases hk : k ∈ jKeys (_filter_comments M)
    · rw [if_pos hk]
      exact jGet_filter_comments M k (not_comment_of_mem_jKeys_filter_comments M k hk)
    · rw [if_neg hk]
      by_cases hc : is_comment_key k = true
      · have hniff : k ∉ jKeys (_filter_comments uo) := fun hmem => by
          rw [hfc k hmem] at hc
          exact Bool.false_ne_true hc
        rw [hMdef, jGet_jUpdate _ _ k hfn, if_neg hniff]
      · rw [Bool.not_eq_true] at hc
        have hkM : k ∉ jKeys M := fun hmem => hk (by
          rw [jKeys_filter_comments]
          exact List.mem_filter.mpr ⟨hmem, by rw [hc]; rfl⟩)
        have h2 : k ∉ jKeys DEFAULT_PRETTIER_OPTIONS := fun hd => hkM (by
          rw [hKeysM]
          exact List.mem_append_left _ hd)
        rw [(jGet_eq_none_iff M k).mpr hkM, (jGet_eq_none_iff _ k).mpr h2]

/-- Reloading a configuration that already has the merged shape is the identity:
the top level of such a configuration is comment-free, its `prettier_options`
entry is a mapping satisfying `merge_opts_idem`, and every key of the remainder
merges back to the value it already has. -/
theorem load_config_master (M fu : Dict)
    (hM : jUpdate DEFAULT_PRETTIER_OPTIONS (_filter_comments M) = M)
    (hfn : (jKeys fu).Nodup)
    (hfc : ∀ k ∈ jKeys fu, is_comment_key k = false)
    (hfp : jHasKey fu "prettier_options" = false) :
    load_config_doc (.obj (jUpdate
      (jSet (_filter_comments DEFAULT_CONFIG) "prettier_options" (.obj M)) fu)) =
    jUpdate (jSet (_filter_comments DEFAULT_CONFIG) "prettier_options" (.obj M)) fu := by
  set D2 : Dict := jSet (_filter_comments DEFAULT_CONFIG) "prettier_options" (JVal.obj M)
    with hD2def
  set r : Dict := jUpdate D2 fu with hrdef
  have hKeysD2 : jKeys D2 = jKeys (_filter_comments DEFAULT_CONFIG) := by
    rw [hD2def, jKeys_jSet, if_pos popts_mem_default_merged]
  have hD2n : (jKeys D2).Nodup := hKeysD2 ▸ nodup_keys_default_merged
  have hrn : (jKeys r).Nodup := nodup_jKeys_jUpdate _ _ hD2n hfn
  have hKeysr : jKeys r = jKeys D2 ++ (jKeys fu).filter (fun k => !(jHasKey D2 k)) :=
    jKeys_jUpdate _ _ hfn
  have hgetrp : jGet r "prettier_options" = some (.obj M) := by
    rw [hrdef, jGet_jUpdate _ _ _ hfn,
      if_neg (fun hc => (jHasKey_eq_false_iff fu "prettier_options").mp hfp hc), hD2def,
      jGet_jSet_self]
  have hrnc : ∀ k ∈ jKeys r, is_comment_key k = false := by
    intro k hk
    rw [hKeysr] at hk
    rcases List.mem_append.mp hk with h1 | h2
    · exact default_merged_no_comment k (hKeysD2 ▸ h1)
    · exact hfc k (List.mem_of_mem_filter h2)
  simp only [load_config_doc]
  rw [hgetrp]
  show jUpdate (jSet (_filter_comments DEFAULT_CONFIG) "prettier_options"
      (JVal.obj (jUpdate (config_options (_filter_comments DEFAULT_CONFIG))
        (_filter_comments M))))
    (_filter_comments (jErase r "prettier_options")) = r
  rw [config_options_default, hM, ← hD2def]
  have herase_nc : ∀ kv ∈ jErase r "prettier_options", is_comment_key kv.1 = false :=
    fun kv hkv => hrnc kv.1 (List.mem_map_of_mem Prod.fst (List.mem_of_mem_filter hkv))
  rw [filter_comments_eq_self _ herase_nc]
  have hern : (jKeys (jErase r "prettier_options")).Nodup := by
    rw [jKeys_jErase]
    exact hrn.filter _
  apply dict_ext _ _ (nodup_jKeys_jUpdate _ _ hD2n hern)
  · rw [jKeys_jUpdate _ _ hern, jKeys_jErase, hKeysr, List.filter_append, List.filter_append]
    have hex : ((jKeys fu).filter (fun k => !(jHasKey D2 k))).filter
        (fun x => x != "prettier_options") =
        (jKeys fu).filter (fun k => !(jHasKey D2 k)) := by
      apply List.filter_eq_self.mpr
      intro a ha
      have : a ≠ "prettier_options" := fun hc =>
        (jHasKey_eq_false_iff fu "prettier_options").mp hfp (hc ▸ List.mem_of_mem_filter ha)
      simpa using this
    have hdef0 : ((jKeys D2).filter (fun x => x != "prettier_options")).filter
        (fun k => !(jHasKey D2 k)) = [] := by
      rw [List.filter_eq_nil_iff]
      intro a ha
      rw [(jHasKey_iff_mem D2 a).mpr (List.mem_of_mem_filter ha)]
      simp
    have hex2 : (((jKeys fu).filter (fun k => !(jHasKey D2 k))).filter
        (fun k => !(jHasKey D2 k))) =
        (jKeys fu).filter (fun k => !(jHasKey D2 k)) := by
      rw [List.filter_filter]
      apply List.filter_congr
      intro a _
      rw [Bool.and_self]
    rw [hex, hdef0, hex2, List.nil_append]
  · intro k
    rw [jGet_jUpdate _ _ k hern]
    by_cases hkp : k = "prettier_options"
    · subst hkp
      rw [if_neg (by
        rw [jKeys_jErase]
        intro hc
        have := List.of_mem_filter hc
        simp at this), hD2def, jGet_jSet_self, ← hgetrp]
    · by_cases hkr : k ∈ jKeys r
      · rw [if_pos (by
          rw [jKeys_jErase]
          exact List.mem_filter.mpr ⟨hkr, by simpa using hkp⟩)]
        exact jGet_jErase_ne r "prettier_options" k hkp
      · rw [if_neg (by
          rw [jKeys_jErase]
          intro hc
          exact hkr (List.mem_of_mem_filter hc))]
        have h2 : k ∉ jKeys D2 := fun hd => hkr (by
          rw [hKeysr]
          exact List.mem_append_left _ hd)
        rw [(jGet_eq_none_iff D2 k).mpr h2, (jGet_eq_none_iff r k).mpr hkr]

/-- Consequences of the merged shape: the `prettier_options` entry is a mapping
containing every default option key, whose comment entries carry exactly the
default comment values, while the top level is comment-free. -/
theorem merged_shape_props (r : Dict) (h : merged_shape r) :
    (∃ M : Dict,
      jGet r "prettier_options" = some (.obj M) ∧
      config_options r = M ∧
      (∀ k ∈ jKeys DEFAULT_PRETTIER_OPTIONS, k ∈ jKeys M) ∧
      (∀ k, is_comment_key k = true → jGet M k = jGet DEFAULT_PRETTIER_OPTIONS k)) ∧
    (∀ k ∈ jKeys r, is_comment_key k = false) := by
  obtain ⟨uo, fu, huo, hfn, hfc, hfp, heq⟩ := h
  have hfuon : (jKeys (_filter_comments uo)).Nodup := by
    rw [jKeys_filter_comments]
    exact huo.filter _
  set M : Dict := jUpdate DEFAULT_PRETTIER_OPTIONS (_filter_comments uo) with hMdef
  set D2 : Dict := jSet (_filter_comments DEFAULT_CONFIG) "prettier_options" (JVal.obj M)
    with hD2def
  have hKeysD2 : jKeys D2 = jKeys (_filter_comments DEFAULT_CONFIG) := by
    rw [hD2def, jKeys_jSet, if_pos popts_mem_default_merged]
  have hgetrp : jGet r "prettier_options" = some (.obj M) := by
    rw [heq, jGet_jUpdate _ _ _ hfn,
      if_neg (fun hc => (jHasKey_eq_false_iff fu "prettier_options").mp hfp hc), hD2def,
      jGet_jSet_self]
  refine ⟨⟨M, hgetrp, ?_, ?_, ?_⟩, ?_⟩
  · unfold config_options
    rw [hgetrp]
  · intro k hk
    rw [hMdef, jKeys_jUpdate _ _ hfuon]
    exact List.mem_append_left _ hk
  · intro k hc
    rw [hMdef, jGet_jUpdate _ _ k hfuon, if_neg (fun hm => by
      rw [not_comment_of_mem_jKeys_filter_comments uo k hm] at hc
      exact Bool.false_ne_true hc)]
  · intro k hk
    rw [heq, jKeys_jUpdate _ _ hfn] at hk
    rcases List.mem_append.mp hk with h1 | h2
    · exact default_merged_no_comment k (hKeysD2 ▸ h1)
    · exact hfc k (List.mem_of_mem_filter h2)

/-- C4: the configuration merge of `load_config` is idempotent — for every
well-formed user document, feeding the merged configuration back through the
merge yields the very same structure (no comment keys reappear, no user keys
are dropped). -/
theorem load_config_merge_idempotent (u : JVal) (hu : doc_wf u) :
    load_config_doc (.obj (load_config_doc u)) = load_config_doc u := by
  obtain ⟨uo, fu, huo, hfn, hfc, hfp, heq⟩ := load_config_shape u hu
  rw [heq]
  exact load_config_master _ fu (merge_opts_idem uo huo) hfn hfc hfp

/-- C4 witness: idempotence at a concrete user document that overrides a
top-level key, an option key, and adds an unknown option key. -/
theorem load_config_merge_idempotent_witness :
    doc_wf (.obj [("timeout_seconds", .num 30),
      ("prettier_options", .obj [("semi", .bool false), ("customOpt", .str "x")]),
      ("extra", .null)]) ∧
    load_config_doc (.obj (load_config_doc (.obj [("timeout_seconds", .num 30),
      ("prettier_options", .obj [("semi", .bool false), ("customOpt", .str "x")]),
      ("extra", .null)]))) =
    load_config_doc (.obj [("timeout_seconds", .num 30),
      ("prettier_options", .obj [("semi", .bool false), ("customOpt", .str "x")]),
      ("extra", .null)]) :=
  ⟨by decide, load_config_merge_idempotent (.obj [("timeout_seconds", .num 30),
      ("prettier_options", .obj [("semi", .bool false), ("customOpt", .str "x")]),
      ("extra", .null)]) (by decide)⟩

/-- C5 counterexample: loading the empty user document produces an in-memory
configuration whose options map still contains the defaults' documentation
comment key `// printWidth` — comment keys do appear inside the options map. -/
theorem load_config_comment_key_in_options :
    is_comment_key "// printWidth" = true ∧
    jGet (config_options (load_config_doc (.obj []))) "// printWidth" =
      some (.str "Line length (default: 80)") :=
  ⟨rfl, rfl⟩

/-- C5 (amended): for every well-formed user document, the merged configuration's
options map contains every key of the default options set and the top level
contains no comment key; inside the options map the only comment keys are the
defaults' own comment entries with their default values — user-supplied comment
keys never enter. -/
theorem load_config_options_invariant (u : JVal) (hu : doc_wf u) :
    (∀ k ∈ jKeys DEFAULT_PRETTIER_OPTIONS, k ∈ jKeys (config_options (load_config_doc u))) ∧
    (∀ k ∈ jKeys (load_config_doc u), is_comment_key k = false) ∧
    (∀ k, is_comment_key k = true →
      jGet (config_options (load_config_doc u)) k = jGet DEFAULT_PRETTIER_OPTIONS k) := by
  obtain ⟨⟨M, hget, hco, hsup, hcom⟩, htop⟩ := merged_shape_props _ (load_config_shape u hu)
  refine ⟨?_, htop, ?_⟩
  · intro k hk
    rw [hco]
    exact hsup k hk
  · intro k hc
    rw [hco]
    exact hcom k hc

/-- C5 witness: at a document that overrides `printWidth` and also supplies its
own value for the comment key `// printWidth`, the default option key survives
and the comment key keeps its default value. -/
theorem load_config_options_invariant_witness :
    "printWidth" ∈ jKeys (config_options (load_config_doc
      (.obj [("prettier_options",
        .obj [("// printWidth", .num 999), ("printWidth", .num 120)])]))) ∧
    jGet (config_options (load_config_doc
      (.obj [("prettier_options",
        .obj [("// printWidth", .num 999), ("printWidth", .num 120)])]))) "// printWidth" =
      jGet DEFAULT_PRETTIER_OPTIONS "// printWidth" :=
  ⟨(load_config_options_invariant (.obj [("prettier_options",
        .obj [("// printWidth", .num 999), ("printWidth", .num 120)])]) (by decide)).1
      "printWidth" (by decide),
   (load_config_options_invariant (.obj [("prettier_options",
        .obj [("// printWidth", .num 999), ("printWidth", .num 120)])]) (by decide)).2.2
      "// printWidth" rfl⟩

/-- C6 counterexample: comment-stripping removes only the level it is applied to —
on this mapping the top-level prefixed key is removed but the prefixed key inside
the options block survives untouched, so prefixed keys are not removed at both
levels. -/
theorem filter_comments_nested_survives :
    is_comment_key "// nested" = true ∧
    _filter_comments [("// top", .str "c"),
      ("prettier_options", .obj [("// nested", .str "c2"), ("printWidth", .num 100)])] =
      [("prettier_options", .obj [("// nested", .str "c2"), ("printWidth", .num 100)])] :=
  ⟨rfl, rfl⟩

/-- C6 (amended): `_filter_comments` removes exactly the prefixed keys of the
mapping level it is applied to and keeps every non-prefixed entry with its value
unchanged; `load_config` applies it to the top level and to the user's options
block, so no user-supplied prefixed entry reaches the merged configuration — but
the defaults' own options block is not stripped, its comment entries remaining
with their default values. -/
theorem filter_comments_exact (d : Dict) :
    (∀ k v, (k, v) ∈ _filter_comments d ↔ ((k, v) ∈ d ∧ is_comment_key k = false)) ∧
    (∀ u, doc_wf u → ∀ k, is_comment_key k = true →
      jHasKey (load_config_doc u) k = false ∧
      jGet (config_options (load_config_doc u)) k = jGet DEFAULT_PRETTIER_OPTIONS k) := by
  refine ⟨mem_filter_comments d, ?_⟩
  intro u hu k hc
  obtain ⟨⟨M, hget, hco, hsup, hcom⟩, htop⟩ := merged_shape_props _ (load_config_shape u hu)
  constructor
  · rw [jHasKey_eq_false_iff]
    intro hmem
    rw [htop k hmem] at hc
    exact Bool.false_ne_true hc
  · rw [hco]
    exact hcom k hc

/-- C6 witness: exact stripping at a concrete mapping, and a user document whose
top-level comment key does not survive the load. -/
theorem filter_comments_exact_witness :
    (("b", JVal.num 2) ∈ _filter_comments [("// a", .num 1), ("b", .num 2)] ↔
      (("b", JVal.num 2) ∈ ([("// a", .num 1), ("b", .num 2)] : Dict) ∧
        is_comment_key "b" = false)) ∧
    jHasKey (load_config_doc (.obj [("// userdoc", .str "note")])) "// userdoc" = false ∧
    jGet (config_options (load_config_doc (.obj [("// userdoc", .str "note")]))) "// userdoc" =
      jGet DEFAULT_PRETTIER_OPTIONS "// userdoc" :=
  ⟨(filter_comments_exact [("// a", .num 1), ("b", .num 2)]).1 "b" (.num 2),
   ((filter_comments_exact []).2 (.obj [("// userdoc", .str "note")]) (by decide)
     "// userdoc" rfl).1,
   ((filter_comments_exact []).2 (.obj [("// userdoc", .str "note")]) (by decide)
     "// userdoc" rfl).2⟩

/-- C7 counterexample: the stored boolean `true` is not a positive number, yet the
validation does not substitute 10 — Python's `bool` is an `int` subtype, so
`isinstance(True, (int, float)) and True > 0` holds and the subprocess timeout
becomes the number 1. -/
theorem effective_timeout_bool_true :
    ¬ isPosNumVal (.bool true) ∧
    jGet [("timeout_seconds", JVal.bool true)] "timeout_seconds" = some (.bool true) ∧
    effective_timeout [("timeout_seconds", JVal.bool true)] = 1 ∧
    effective_timeout [("timeout_seconds", JVal.bool true)] ≠ 10 := by
  refine ⟨?_, rfl, rfl, by decide⟩
  rintro ⟨n, hn, -⟩
  exact JVal.noConfusion hn

/-- C7 (amended): a stored positive number is used as given; every stored value
that is neither a positive number nor the boolean `true` is replaced by the fixed
default 10, as is an absent key; the boolean `true` passes the numeric check and
is used as a 1-second timeout; and the validated timeout is always positive, so an
invalid value never fails the request. -/
theorem effective_timeout_spec (config : Dict) :
    (∀ n : Int, jGet config "timeout_seconds" = some (.num n) → 0 < n →
      effective_timeout config = n) ∧
    (∀ v, jGet config "timeout_seconds" = some v → ¬ isPosNumVal v → v ≠ .bool true →
      effective_timeout config = 10) ∧
    (jGet config "timeout_seconds" = none → effective_timeout config = 10) ∧
    (jGet config "timeout_seconds" = some (.bool true) → effective_timeout config = 1) ∧
    0 < effective_timeout config := by
  refine ⟨?_, ?_, ?_, ?_, ?_⟩
  · intro n hgn hpos
    simp [effective_timeout, pyGetD, hgn, hpos]
  · intro v hgv hnp hnbt
    cases v with
    | num n =>
      have hnn : ¬ 0 < n := fun hp => hnp ⟨n, rfl, hp⟩
      simp [effective_timeout, pyGetD, hgv, hnn]
    | bool b =>
      cases b with
      | true => exact absurd rfl hnbt
      | false => simp [effective_timeout, pyGetD, hgv]
    | str s => simp [effective_timeout, pyGetD, hgv]
    | null => simp [effective_timeout, pyGetD, hgv]
    | arr l => simp [effective_timeout, pyGetD, hgv]
    | obj o => simp [effective_timeout, pyGetD, hgv]
  · intro hgn
    simp [effective_timeout, pyGetD, hgn]
  · intro hgt
    simp [effective_timeout, pyGetD, hgt]
  · unfold effective_timeout pyGetD
    rcases jGet config "timeout_seconds" with _ | v
    · simp
    · cases v with
      | num n =>
        simp only [Option.getD_some]
        split
        · omega
        · omega
      | bool b => cases b <;> simp
      | str s => simp
      | null => simp
      | arr l => simp
      | obj o => simp

/-- C7 witness: a positive numeric timeout is used as given and is positive; a
string timeout falls back to 10. -/
theorem effective_timeout_spec_witness :
    effective_timeout [("timeout_seconds", JVal.num 30)] = 30 ∧
    0 < effective_timeout [("timeout_seconds", JVal.num 30)] ∧
    effective_timeout [("timeout_seconds", JVal.str "soon")] = 10 :=
  ⟨(effective_timeout_spec [("timeout_seconds", JVal.num 30)]).1 30 rfl (by decide),
   (effective_timeout_spec [("timeout_seconds", JVal.num 30)]).2.2.2.2,
   (effective_timeout_spec [("timeout_seconds", JVal.str "soon")]).2.1 (.str "soon") rfl
     (by rintro ⟨n, hn, -⟩; exact JVal.noConfusion hn) (by intro h; exact JVal.noConfusion h)⟩

theorem pyStr_num (n : Int) : pyStr (.num n) = toString n := by
  simp [pyStr, pyRepr]

theorem append_two_pairs (P : List JVal) (a b c d : JVal) :
    ∃ pre, P ++ [a, b] ++ [c, d] = pre ++ [a, b, c, d] :=
  ⟨P, by simp⟩

/-- C1: with `use_prettier_config_file` falsy and a well-formed options block, the
built command always ends with the four tokens `--range-start S --range-end E`,
where `S` is the string of the configured `rangeStart` (or `"0"` when the key is
absent) and `E` is the string of the configured `rangeEnd` (or the literal
`"Infinity"` when absent), whatever other option keys are present. -/
theorem build_command_range_suffix (prettier_path parser : String) (config : Dict)
    (hup : pyTruthy (pyGetD config "use_prettier_config_file" (.bool true)) = false)
    (_hwf : options_wf config = true) :
    (∃ pre : List JVal, build_prettier_command prettier_path parser config =
      pre ++ [JVal.str "--range-start",
        JVal.str (range_start_token (config_options config)),
        JVal.str "--range-end",
        JVal.str (range_end_token (config_options config))]) ∧
    (jHasKey (config_options config) "rangeStart" = false →
      range_start_token (config_options config) = "0") ∧
    (jHasKey (config_options config) "rangeEnd" = false →
      range_end_token (config_options config) = "Infinity") ∧
    (∀ v, jGet (config_options config) "rangeStart" = some v → v ≠ .null →
      range_start_token (config_options config) = pyStr v) ∧
    (∀ v, jGet (config_options config) "rangeEnd" = some v → v ≠ .null →
      range_end_token (config_options config) = pyStr v) := by
  refine ⟨?_, ?_, ?_, ?_, ?_⟩
  · simp only [build_prettier_command]
    rw [if_neg (fun hcon => absurd (hup.symm.trans hcon) Bool.false_ne_true)]
    exact append_two_pairs _ _ _ _ _
  · intro h
    unfold range_start_token pyGetNone
    rw [(jGet_eq_none_iff _ _).mpr ((jHasKey_eq_false_iff _ _).mp h)]
    show pyStr (JVal.num 0) = "0"
    rw [pyStr_num]
    rfl
  · intro h
    unfold range_end_token pyGetNone
    rw [(jGet_eq_none_iff _ _).mpr ((jHasKey_eq_false_iff _ _).mp h)]
    rfl
  · intro v hgv hvn
    unfold range_start_token pyGetNone
    rw [hgv]
    cases v with
    | null => exact absurd rfl hvn
    | str s => rfl
    | num n => rfl
    | bool b => rfl
    | arr l => rfl
    | obj o => rfl
  · intro v hgv hvn
    unfold range_end_token pyGetNone
    rw [hgv]
    cases v with
    | null => exact absurd rfl hvn
    | str s => rfl
    | num n => rfl
    | bool b => rfl
    | arr l => rfl
    | obj o => rfl

/-- C1 witness: a configuration that disables the project config file and sets
`rangeStart` while leaving `rangeEnd` absent. -/
theorem build_command_range_suffix_witness :
    pyTruthy (pyGetD [("use_prettier_config_file", JVal.bool false),
      ("prettier_options", JVal.obj [("rangeStart", JVal.num 5)])]
      "use_prettier_config_file" (.bool true)) = false ∧
    (∃ pre : List JVal, build_prettier_command "prettier" "babel"
        [("use_prettier_config_file", JVal.bool false),
         ("prettier_options", JVal.obj [("rangeStart", JVal.num 5)])] =
      pre ++ [JVal.str "--range-start",
        JVal.str (range_start_token (config_options
          [("use_prettier_config_file", JVal.bool false),
           ("prettier_options", JVal.obj [("rangeStart", JVal.num 5)])])),
        JVal.str "--range-end",
        JVal.str (range_end_token (config_options
          [("use_prettier_config_file", JVal.bool false),
           ("prettier_options", JVal.obj [("rangeStart", JVal.num 5)])]))]) ∧
    range_start_token (config_options [("use_prettier_config_file", JVal.bool false),
      ("prettier_options", JVal.obj [("rangeStart", JVal.num 5)])]) = pyStr (JVal.num 5) ∧
    range_end_token (config_options [("use_prettier_config_file", JVal.bool false),
      ("prettier_options", JVal.obj [("rangeStart", JVal.num 5)])]) = "Infinity" :=
  ⟨rfl,
   (build_command_range_suffix "prettier" "babel"
     [("use_prettier_config_file", JVal.bool false),
      ("prettier_options", JVal.obj [("rangeStart", JVal.num 5)])] rfl rfl).1,
   (build_command_range_suffix "prettier" "babel"
     [("use_prettier_config_file", JVal.bool false),
      ("prettier_options", JVal.obj [("rangeStart", JVal.num 5)])] rfl rfl).2.2.2.1 (.num 5) rfl
     (by intro h; exact JVal.noConfusion h),
   (build_command_range_suffix "prettier" "babel"
     [("use_prettier_config_file", JVal.bool false),
      ("prettier_options", JVal.obj [("rangeStart", JVal.num 5)])] rfl rfl).2.2.1 rfl⟩

/-- C2: with `use_prettier_config_file` truthy, the built command is exactly the
executable's seed tokens followed by `--parser P --no-color`, with no option flags
appended, for any contents of the options block. -/
theorem build_command_project_config (prettier_path parser : String) (config : Dict)
    (hup : pyTruthy (pyGetD config "use_prettier_config_file" (.bool true)) = true) :
    build_prettier_command prettier_path parser config =
      (py_cmd_seed prettier_path).map JVal.str ++
        [JVal.str "--parser", JVal.str parser, JVal.str "--no-color"] := by
  simp only [build_prettier_command]
  rw [if_pos hup]
  simp

/-- C2 witness: the default configuration (project config file enabled) with a
package-manager seed and an options block present — no option flags appear. -/
theorem build_command_project_config_witness :
    pyTruthy (pyGetD [("prettier_options", JVal.obj [("semi", JVal.bool false)])]
      "use_prettier_config_file" (.bool true)) = true ∧
    build_prettier_command "npx prettier" "css"
        [("prettier_options", JVal.obj [("semi", JVal.bool false)])] =
      [JVal.str "npx", JVal.str "prettier", JVal.str "--parser", JVal.str "css",
        JVal.str "--no-color"] :=
  ⟨rfl, by
    rw [build_command_project_config "npx prettier" "css"
      [("prettier_options", JVal.obj [("semi", JVal.bool false)])] rfl]
    rfl⟩

/-- C3: the lexer-to-parser lookup returns the documented parser for mapped names
(`JavaScript` maps to `babel`), only ever returns a pair stored in the mapping
(never a default), and for any name absent from the mapping `do_format` fails
explicitly with the unsupported outcome and returns no text. -/
theorem parser_lookup_spec :
    lexerToParserGet "JavaScript" = some "babel" ∧
    (∀ l p, lexerToParserGet l = some p → (l, p) ∈ LEXER_TO_PARSER) ∧
    (∀ (text lexer : String) (env : Env), pyStrip text ≠ "" →
      lexerToParserGet (effective_lexer lexer env) = none →
      do_format text lexer env = .unsupported (effective_lexer lexer env) ∧
      result_text (do_format text lexer env) = none) := by
  refine ⟨rfl, ?_, ?_⟩
  · intro l p h
    unfold lexerToParserGet at h
    rcases hf : LEXER_TO_PARSER.find? (fun kv => kv.1 == l) with _ | kv
    · rw [hf] at h
      exact Option.noConfusion h
    · rw [hf] at h
      have hl : kv.1 = l := by simpa using List.find?_some hf
      have hp : kv.2 = p := by simpa using h
      have hmem := List.mem_of_find?_eq_some hf
      rw [← hl, ← hp]
      simpa using hmem
  · intro text lexer env h0 hnone
    have hcond : ¬(text = "" ∨ pyStrip text = "") := by
      rintro (h | h)
      · exact h0 (by rw [h]; rfl)
      · exact h0 h
    constructor
    · unfold do_format
      rw [if_neg hcond, hnone]
    · unfold do_format
      rw [if_neg hcond, hnone]
      rfl

/-- C3 witness: the mapped name resolves to its parser; the unmapped name
`PlainText` makes `do_format` return the unsupported outcome and no text. -/
theorem parser_lookup_spec_witness :
    lexerToParserGet "JavaScript" = some "babel" ∧
    do_format "hello" "PlainText" (probe_env none (.completed 0 "x" "")) =
      .unsupported "PlainText" ∧
    result_text (do_format "hello" "PlainText" (probe_env none (.completed 0 "x" ""))) =
      none :=
  ⟨parser_lookup_spec.1,
   (parser_lookup_spec.2.2 "hello" "PlainText" (probe_env none (.completed 0 "x" ""))
     (by decide) rfl).1,
   (parser_lookup_spec.2.2 "hello" "PlainText" (probe_env none (.completed 0 "x" ""))
     (by decide) rfl).2⟩

/-- C8: when the subprocess completes with a non-zero exit status, `do_format`
returns the process-failure outcome with no formatted text; the surfaced
diagnostic is the first 3 lines of the trimmed stderr when it contains a
syntax/parse-error marker, the raw trimmed stderr otherwise, and the literal
`Unknown error` when stderr is the empty string. -/
theorem process_failure_classification (env : Env) (text lexer path parser : String)
    (rc : Int) (out err : String)
    (h0 : pyStrip text ≠ "")
    (hparser : lexerToParserGet (effective_lexer lexer env) = some parser)
    (hfind : env.find (load_config_env env.user_config) = some path)
    (hrun : env.run (build_prettier_command path parser (load_config_env env.user_config))
      text (do_cwd env) (effective_timeout (load_config_env env.user_config)) =
      .completed rc out err)
    (hrc : rc ≠ 0) :
    do_format text lexer env = .processFailure (classify_stderr err) ∧
    result_text (do_format text lexer env) = none ∧
    classify_stderr err =
      (if has_syntax_marker (stderr_msg err) then
        "ERROR: Prettier syntax error:\n  " ++
          String.intercalate "\n  " ((py_split_lines (stderr_msg err)).take 3)
      else "ERROR: Prettier failed: " ++ stderr_msg err) ∧
    stderr_msg "" = "Unknown error" := by
  have hcond : ¬(text = "" ∨ pyStrip text = "") := by
    rintro (h | h)
    · exact h0 (by rw [h]; rfl)
    · exact h0 h
  have hmain : do_format text lexer env = .processFailure (classify_stderr err) := by
    unfold do_format
    rw [if_neg hcond, hparser]
    show (match env.find (load_config_env env.user_config) with
      | none => FormatResult.notFound
      | some prettier_path =>
        match env.run (build_prettier_command prettier_path parser
            (load_config_env env.user_config)) text (do_cwd env)
            (effective_timeout (load_config_env env.user_config)) with
        | .completed rc2 stdout stderr =>
          if rc2 ≠ 0 then .processFailure (classify_stderr stderr)
          else if stdout = "" then .emptyOutput
          else .success stdout
        | .timeoutExpired => .timedOut (effective_timeout (load_config_env env.user_config))
        | .fileNotFound => .spawnNotFound
        | .exn m => .execError m) = FormatResult.processFailure (classify_stderr err)
    rw [hfind]
    show (match env.run (build_prettier_command path parser
        (load_config_env env.user_config)) text (do_cwd env)
        (effective_timeout (load_config_env env.user_config)) with
      | RunOutcome.completed rc2 stdout stderr =>
        if rc2 ≠ 0 then FormatResult.processFailure (classify_stderr stderr)
        else if stdout = "" then .emptyOutput
        else .success stdout
      | .timeoutExpired => .timedOut (effective_timeout (load_config_env env.user_config))
      | .fileNotFound => .spawnNotFound
      | .exn m => .execError m) = FormatResult.processFailure (classify_stderr err)
    rw [hrun]
    show (if rc ≠ 0 then FormatResult.processFailure (classify_stderr err)
      else if out = "" then .emptyOutput else .success out) =
      FormatResult.processFailure (classify_stderr err)
    rw [if_pos hrc]
  refine ⟨hmain, ?_, rfl, rfl⟩
  rw [hmain]
  rfl

/-- C8 witness: exit status 2 with a syntax-error marker on stderr. -/
theorem process_failure_classification_witness :
    do_format "const x=1" "JavaScript" (probe_env none (.completed 2 "" "SyntaxError: boom"))
      = .processFailure (classify_stderr "SyntaxError: boom") ∧
    classify_stderr "SyntaxError: boom" =
      "ERROR: Prettier syntax error:\n  SyntaxError: boom" :=
  ⟨(process_failure_classification (probe_env none (.completed 2 "" "SyntaxError: boom"))
      "const x=1" "JavaScript" "prettier" "babel" 2 "" "SyntaxError: boom"
      (by decide) rfl rfl rfl (by decide)).1,
   rfl⟩

/-- C9: when the subprocess completes with exit status zero and empty standard
output, `do_format` returns the empty-output failure outcome rather than
returning the empty string as a success. -/
theorem empty_output_detection (env : Env) (text lexer path parser err : String)
    (h0 : pyStrip text ≠ "")
    (hparser : lexerToParserGet (effective_lexer lexer env) = some parser)
    (hfind : env.find (load_config_env env.user_config) = some path)
    (hrun : env.run (build_prettier_command path parser (load_config_env env.user_config))
      text (do_cwd env) (effective_timeout (load_config_env env.user_config)) =
      .completed 0 "" err) :
    do_format text lexer env = .emptyOutput ∧
    result_text (do_format text lexer env) = none := by
  have hcond : ¬(text = "" ∨ pyStrip text = "") := by
    rintro (h | h)
    · exact h0 (by rw [h]; rfl)
    · exact h0 h
  have hmain : do_format text lexer env = .emptyOutput := by
    unfold do_format
    rw [if_neg hcond, hparser]
    show (match env.find (load_config_env env.user_config) with
      | none => FormatResult.notFound
      | some prettier_path =>
        match env.run (build_prettier_command prettier_path parser
            (load_config_env env.user_config)) text (do_cwd env)
            (effective_timeout (load_config_env env.user_config)) with
        | .completed rc2 stdout stderr =>
          if rc2 ≠ 0 then .processFailure (classify_stderr stderr)
          else if stdout = "" then .emptyOutput
          else .success stdout
        | .timeoutExpired => .timedOut (effective_timeout (load_config_env env.user_config))
        | .fileNotFound => .spawnNotFound
        | .exn m => .execError m) = FormatResult.emptyOutput
    rw [hfind]
    show (match env.run (build_prettier_command path parser
        (load_config_env env.user_config)) text (do_cwd env)
        (effective_timeout (load_config_env env.user_config)) with
      | RunOutcome.completed rc2 stdout stderr =>
        if rc2 ≠ 0 then FormatResult.processFailure (classify_stderr stderr)
        else if stdout = "" then .emptyOutput
        else .success stdout
      | .timeoutExpired => .timedOut (effective_timeout (load_config_env env.user_config))
      | .fileNotFound => .spawnNotFound
      | .exn m => .execError m) = FormatResult.emptyOutput
    rw [hrun]
    show (if (0 : Int) ≠ 0 then FormatResult.processFailure (classify_stderr err)
      else if ("" : String) = "" then FormatResult.emptyOutput
      else FormatResult.success "") = FormatResult.emptyOutput
    rw [if_neg (by omega), if_pos rfl]
  refine ⟨hmain, ?_⟩
  rw [hmain]
  rfl

/-- C9 witness: a zero exit status with empty stdout yields the empty-output
outcome and no text. -/
theorem empty_output_detection_witness :
    do_format "const x=1" "JavaScript" (probe_env none (.completed 0 "" "")) =
      .emptyOutput ∧
    result_text (do_format "const x=1" "JavaScript" (probe_env none (.completed 0 "" ""))) =
      none :=
  ⟨(empty_output_detection (probe_env none (.completed 0 "" "")) "const x=1" "JavaScript"
      "prettier" "babel" "" (by decide) rfl rfl rfl).1,
   (empty_output_detection (probe_env none (.completed 0 "" "")) "const x=1" "JavaScript"
      "prettier" "babel" "" (by decide) rfl rfl rfl).2⟩

/-- C10: for empty or whitespace-only input the pipeline returns the input text
unchanged, and the result does not depend on the environment at all — no
configuration load, no executable resolution, no subprocess. -/
theorem empty_input_unchanged (text lexer : String) (env env2 : Env)
    (h : pyStrip text = "") :
    do_format text lexer env = .unchanged text ∧
    result_text (do_format text lexer env) = some text ∧
    do_format text lexer env = do_format text lexer env2 := by
  unfold do_format
  rw [if_pos (Or.inr h), if_pos (Or.inr h)]
  exact ⟨rfl, rfl, rfl⟩

/-- C10 witness: whitespace-only input under two very different environments. -/
theorem empty_input_unchanged_witness :
    pyStrip "  \n " = "" ∧
    do_format "  \n " "JavaScript" (probe_env none (.completed 0 "x" "")) =
      .unchanged "  \n " ∧
    do_format "  \n " "JavaScript" (probe_env none (.completed 0 "x" "")) =
      do_format "  \n " "JavaScript" (probe_env none RunOutcome.timeoutExpired) :=
  ⟨rfl,
   (empty_input_unchanged "  \n " "JavaScript" (probe_env none (.completed 0 "x" ""))
     (probe_env none RunOutcome.timeoutExpired) rfl).1,
   (empty_input_unchanged "  \n " "JavaScript" (probe_env none (.completed 0 "x" ""))
     (probe_env none RunOutcome.timeoutExpired) rfl).2.2⟩
